import Mathlib

/-!
Verification of `decouple.py` (python-decouple-improved).

Shallow embedding of the module's pure data transformations and of the
stateful `SuperConfig` discovery algorithm.  Filesystem reads (`os.listdir`,
file contents) are modelled by an explicit `FS` value; the process
environment by an association list; the upward walk and lookup loop of
`SuperConfig.__call__` by explicit state passing that also records an event
trace (directory scans, file loads, resolver trials) so that the ordering
and memoization properties of the spec can be stated.
-/

namespace Decouple

/-- The quote characters recognised by `RepositoryEnv.__init__`.
`squote` is the ASCII apostrophe (code 39). -/
def squote : Char := Char.ofNat 39

def dquote : Char := '"'

/-! ### strtobool and Config._cast_boolean (decouple.py lines 18-31, 159-164) -/

/-- `TRUE_VALUES` from decouple.py line 18. -/
def TRUE_VALUES : List String := ["y", "yes", "t", "true", "on", "1"]

/-- `FALSE_VALUES` from decouple.py line 19. -/
def FALSE_VALUES : List String := ["n", "no", "f", "false", "off", "0"]

/-- Python `str.lower()` (character-wise lowercasing; the truth-table
members are all ASCII). -/
def pyLower (s : String) : String :=
  String.mk (s.toList.map Char.toLower)

/-- `strtobool` (decouple.py lines 21-31) applied to a string: lowercase,
then membership in the truth tables; any other value raises `ValueError`,
modelled as `none`. -/
def strtobool (value : String) : Option Bool :=
  let v := pyLower value
  if v ∈ TRUE_VALUES then some true
  else if v ∈ FALSE_VALUES then some false
  else none

/-- `Config._cast_boolean` (decouple.py lines 159-164):
`bool(value) if value == '' else bool(strtobool(value))`; the empty string
is falsy, every other string goes through `strtobool`. -/
def castBoolean (value : String) : Option Bool :=
  if value = "" then some false else strtobool value

/-! ### RepositoryEnv line parsing (decouple.py lines 93-106) -/

/-- Python `str.strip()` whitespace set (space, tab, newline, carriage
return, vertical tab, form feed). -/
def pySpace (c : Char) : Bool :=
  c = ' ' || c = '\t' || c = '\n' || c = '\r' || c = Char.ofNat 11 || c = Char.ofNat 12

/-- Python `str.strip()` on a character list: drop whitespace from both
ends. -/
def pyStrip (cs : List Char) : List Char :=
  ((cs.dropWhile pySpace).reverse.dropWhile pySpace).reverse

/-- The test of decouple.py line 104: value of length at least 2 whose
first and last characters are the same quote character. -/
def quotedWrapB (v : List Char) : Bool :=
  decide (2 ≤ v.length ∧
    ((v.head? = some squote ∧ v.getLast? = some squote) ∨
     (v.head? = some dquote ∧ v.getLast? = some dquote)))

/-- decouple.py lines 104-105: strip exactly one outer pair of matching
quotes (`v[1:-1]`), otherwise leave the value unchanged. -/
def stripQuotesL (v : List Char) : List Char :=
  if quotedWrapB v then (v.drop 1).dropLast else v

/-- One iteration of the loop in `RepositoryEnv.__init__`
(decouple.py lines 97-106): strip the line; skip it when empty, when it
starts with `#`, or when it has no `=`; otherwise split on the first `=`,
strip key and value, and strip one outer quote pair from the value. -/
def parseEnvLine (line : List Char) : Option (List Char × List Char) :=
  let l := pyStrip line
  if l.isEmpty then none
  else if l.head? = some '#' then none
  else if '=' ∈ l then
    some (pyStrip (l.takeWhile (fun c => c != '=')),
          stripQuotesL (pyStrip ((l.dropWhile (fun c => c != '=')).drop 1)))
  else none

/-- The whole of `RepositoryEnv.__init__`: fold the parsed lines into the
`data` mapping.  New bindings are consed at the front and `List.lookup`
returns the first match, so the last occurrence of a duplicate key wins,
exactly as rebinding a Python dict key does. -/
def parseEnvLines (lines : List String) : List (String × String) :=
  lines.foldl
    (fun acc line =>
      match parseEnvLine line.toList with
      | some (k, v) => (String.mk k, String.mk v) :: acc
      | none => acc)
    []

/-! ### The Repository (Source) variants (decouple.py lines 38-134) -/

/-- Index of the last `.` in a character list, `none` when there is no
dot. -/
def lastDot (cs : List Char) : Option Nat :=
  (List.range cs.length).foldl
    (fun acc i => if cs.get? i = some '.' then some i else acc) none

/-- `RepositoryIni` key splitting (decouple.py lines 72-76, 78-84):
`key.rsplit('.', 1)` when the key contains a dot, else the fixed default
section `settings`. -/
def splitKey (key : String) : String × String :=
  match lastDot key.toList with
  | none => ("settings", key)
  | some d => (String.mk (key.toList.take d), String.mk (key.toList.drop (d + 1)))

/-- The four repository variants.  `envFile` and `secretDir` carry their
in-memory `data` mapping; `iniFile` carries the external `ConfigParser`
state, modelled as the parsed section list (the modelled files declare no
`[DEFAULT]` values). -/
inductive Source where
  | empty
  | iniFile (sections : List (String × List (String × String)))
  | envFile (data : List (String × String))
  | secretDir (data : List (String × String))
deriving DecidableEq

/-- Outcome of `repository[key]` (`__getitem__`): a returned string, the
Python `None` returned by `RepositoryEmpty.__getitem__` (line 57), a raised
`KeyError`, or a raised `configparser.NoSectionError` (the `NoOptionError`
of the parser is translated to `KeyError` on line 86, `NoSectionError`
is not caught and propagates). -/
inductive SrcResult where
  | val (v : String)
  | retNone
  | keyError (k : String)
  | noSection (s : String)
deriving DecidableEq

/-- Outcome of `key in repository` (`__contains__`): a boolean, or the
`NoSectionError` that `ConfigParser.has_option` raises when the named
section does not exist. -/
inductive ContainsR where
  | found (b : Bool)
  | noSection (s : String)
deriving DecidableEq

/-- `__contains__` of each variant (decouple.py lines 53-54, 72-76,
108-109, 130-131).  For `iniFile`, `has_option` with an empty section name
consults the (empty) defaults, and raises `NoSectionError` for a missing
section. -/
def Source.containsR : Source → String → ContainsR
  | .empty, _ => .found false
  | .envFile data, k => .found (List.lookup k data).isSome
  | .secretDir data, k => .found (List.lookup k data).isSome
  | .iniFile sections, key =>
    if (splitKey key).1 = "" then .found false
    else
      match List.lookup (splitKey key).1 sections with
      | none => .noSection (splitKey key).1
      | some opts => .found (List.lookup (splitKey key).2 opts).isSome

/-- `__getitem__` of each variant (decouple.py lines 56-57, 78-86,
111-112, 133-134). -/
def Source.getK : Source → String → SrcResult
  | .empty, _ => .retNone
  | .envFile data, k =>
    match List.lookup k data with
    | some v => .val v
    | none => .keyError k
  | .secretDir data, k =>
    match List.lookup k data with
    | some v => .val v
    | none => .keyError k
  | .iniFile sections, key =>
    if (splitKey key).1 = "" then .noSection (splitKey key).1
    else
      match List.lookup (splitKey key).1 sections with
      | none => .noSection (splitKey key).1
      | some opts =>
        match List.lookup (splitKey key).2 opts with
        | some v => .val v
        | none => .keyError key

/-! ### Config.get (decouple.py lines 186-210) -/

/-- Result of `Config.get` / `Config.__call__` / `SuperConfig.__call__`:
a value, an `UndefinedValueError` carrying the option named in its message,
a `ValueError`-style failure raised by the cast function, or any other
propagated Python exception. -/
inductive CfgResult (α : Type) where
  | ok (v : α)
  | undefinedError (option : String)
  | castError
  | pyError (msg : String)
deriving DecidableEq

/-- `cast(raw)`: the user cast either yields a value or raises. -/
def applyCast {α : Type} (cast : String → Option α) (v : String) : CfgResult α :=
  match cast v with
  | some x => .ok x
  | none => .castError

/-- `Config.get` (decouple.py lines 186-210) after the `cast is bool`
substitution has been resolved (a bool-marker call is the instantiation at
`cast := castBoolean`).  Environment wins, then the repository, then the
default (returned verbatim, never cast), else `UndefinedValueError`.
The `.retNone` branch under a positive `__contains__` is unreachable
(`contains_true_getK_val` below): no variant answers `True` for a key it
cannot produce a string for. -/
def Config.getWith {α : Type} (cast : String → Option α) (env : List (String × String))
    (src : Source) (option : String) (default : Option α) : CfgResult α :=
  match List.lookup option env with
  | some v => applyCast cast v
  | none =>
    match src.containsR option with
    | .noSection s => .pyError ("NoSectionError: " ++ s)
    | .found true =>
      match src.getK option with
      | .val v => applyCast cast v
      | .retNone => .pyError "cast applied to None"
      | .keyError k => .pyError ("KeyError: " ++ k)
      | .noSection s => .pyError ("NoSectionError: " ++ s)
    | .found false =>
      match default with
      | some d => .ok d
      | none => .undefinedError option

/-! ### SuperConfig (decouple.py lines 245-335)

Absolute filesystem paths are lists of components; `[]` is the root `/`,
`os.path.dirname` is `List.dropLast`, and `os.path.join p [fn]` is
`p ++ [fn]`.  The filesystem is a value `FS`; the current working
directory (`os.getcwd()`) and the caller's directory
(`SuperConfig._caller_path`, a runtime stack inspection) are explicit
parameters.  Every run records a trace of events. -/

abbrev Path := List String

/-- Contents of one file, pre-parsed per format: the raw lines of an
`.env` file, or the section table that `ConfigParser.read_file` produces
for an `.ini` file.  The modelled filesystems list a file in a directory
only when its content of the matching format is present in `files`. -/
inductive FileContent where
  | envLines (lines : List String)
  | iniSections (sections : List (String × List (String × String)))

/-- The modelled filesystem: directory listings and file contents. -/
structure FS where
  dirs : List (Path × List String)
  files : List (Path × FileContent)

/-- `os.listdir` on the modelled filesystem. -/
def listdir (fs : FS) (p : Path) : List String :=
  (List.lookup p fs.dirs).getD []

/-- Observable steps of a `SuperConfig.__call__` run: a directory listing
(`os.listdir` in `_load_in_dir`), a config file being loaded into a new
`Config`, and a trial of the `idx`-th already-loaded `Config`. -/
inductive Event where
  | scanDir (p : Path)
  | loadFile (p : Path)
  | tryConfig (i : Nat)
deriving DecidableEq

/-- Mutable state of a `SuperConfig` instance (decouple.py lines 259-262). -/
structure SuperConfig where
  search_paths : List Path
  configs : List Source
  config_paths : List Path
deriving DecidableEq

/-- `SuperConfig.DIRECT` (decouple.py line 257). -/
def DIRECT : List String := [".env", "settings.ini"]

/-- `os.path.splitext` on a basename: split at the last dot, unless every
character before it is itself a dot (leading dots of a hidden file are not
an extension). -/
def splitext (s : String) : String × String :=
  match lastDot s.toList with
  | none => (s, "")
  | some d =>
    if (List.range d).any (fun i => s.toList.get? i ≠ some '.') then
      (String.mk (s.toList.take d), String.mk (s.toList.drop d))
    else (s, "")

/-- decouple.py lines 268-269: `name, ext = splitext(basename(filename));
ext = name if name.startswith('.') else ext`. -/
def extOf (fn : String) : String :=
  if (splitext fn).1.toList.head? = some '.' then (splitext fn).1 else (splitext fn).2

/-- `SuperConfig.EXTS[ext](full_path)` (decouple.py lines 256, 277):
construct the repository matching the extension from the file's content. -/
def mkSource (fs : FS) (ext : String) (full : Path) : Source :=
  match List.lookup full fs.files with
  | some (.envLines ls) => if ext = ".env" then .envFile (parseEnvLines ls) else .empty
  | some (.iniSections ss) => if ext = ".ini" then .iniFile ss else .empty
  | none => .empty

/-- Register one matching file (decouple.py lines 274-277): record the
full path and append a new `Config` to the discovery-ordered list. -/
def loadStep (fs : FS) (path : Path) (fn : String) (sc : SuperConfig) : SuperConfig :=
  { sc with
    config_paths := (path ++ [fn]) :: sc.config_paths,
    configs := sc.configs ++ [mkSource fs (extOf fn) (path ++ [fn])] }

/-- The loop body of `SuperConfig._load_in_dir` (decouple.py lines
267-277) over a directory listing: load each filename that matches by
extension inside a configured search path or by exact name anywhere,
skipping paths already in `config_paths`. -/
def loadFilesIn (fs : FS) (path : Path) : SuperConfig → List String → SuperConfig × List Event
  | sc, [] => (sc, [])
  | sc, fn :: rest =>
    if (path ∈ sc.search_paths ∧ (extOf fn = ".env" ∨ extOf fn = ".ini")) ∨ fn ∈ DIRECT then
      if (path ++ [fn]) ∈ sc.config_paths then
        loadFilesIn fs path sc rest
      else
        ((loadFilesIn fs path (loadStep fs path fn sc) rest).1,
         Event.loadFile (path ++ [fn]) :: (loadFilesIn fs path (loadStep fs path fn sc) rest).2)
    else loadFilesIn fs path sc rest

/-- `SuperConfig._load_in_dir` (decouple.py lines 264-277): list the
directory (one scan event) and load the matching files. -/
def loadInDir (fs : FS) (sc : SuperConfig) (path : Path) : SuperConfig × List Event :=
  ((loadFilesIn fs path sc (listdir fs path)).1,
   Event.scanDir path :: (loadFilesIn fs path sc (listdir fs path)).2)

/-- `SuperConfig._find_files` (decouple.py lines 280-288) with the walked
path passed reversed so the upward recursion is structural: load the
current directory, then recurse into the parent when the parent is not the
filesystem root and the current directory is not `os.getcwd()`. -/
def findFilesRev (fs : FS) (cwd : Path) : SuperConfig → List String → SuperConfig × List Event
  | sc, [] => loadInDir fs sc []
  | sc, c :: rest =>
    if rest ≠ [] ∧ (c :: rest).reverse ≠ cwd then
      ((findFilesRev fs cwd (loadInDir fs sc ((c :: rest).reverse)).1 rest).1,
       (loadInDir fs sc ((c :: rest).reverse)).2 ++
         (findFilesRev fs cwd (loadInDir fs sc ((c :: rest).reverse)).1 rest).2)
    else loadInDir fs sc ((c :: rest).reverse)

/-- `SuperConfig._find_files` on a forward path. -/
def findFiles (fs : FS) (cwd : Path) (sc : SuperConfig) (path : Path) :
    SuperConfig × List Event :=
  findFilesRev fs cwd sc path.reverse

/-- The `for path in [self._caller_path(), *self.search_paths]` loop of
`SuperConfig.__call__` (decouple.py lines 324-325). -/
def findFilesAll (fs : FS) (cwd : Path) : SuperConfig → List Path → SuperConfig × List Event
  | sc, [] => (sc, [])
  | sc, p :: ps =>
    ((findFilesAll fs cwd (findFiles fs cwd sc p).1 ps).1,
     (findFiles fs cwd sc p).2 ++ (findFilesAll fs cwd (findFiles fs cwd sc p).1 ps).2)

/-- decouple.py lines 323-325: discovery runs, over the caller's path and
every configured search path, exactly when no `Config` has been loaded
yet. -/
def SuperConfig.discover (fs : FS) (cwd : Path) (callerPath : Path) (sc : SuperConfig) :
    SuperConfig × List Event :=
  if sc.configs.length = 0 then findFilesAll fs cwd sc (callerPath :: sc.search_paths)
  else (sc, [])

/-- The `for idx, config in enumerate(self.configs)` loop of
`SuperConfig.__call__` (decouple.py lines 327-335): try each `Config` in
discovery order, passing the caller's default only to the last one,
swallowing `UndefinedValueError` and propagating everything else; when
the list is exhausted raise `UndefinedValueError` naming the option. -/
def tryConfigs {α : Type} (env : List (String × String)) (option : String)
    (cast : String → Option α) (default : Option α) :
    List Source → Nat → List Event × CfgResult α
  | [], _ => ([], .undefinedError option)
  | c :: rest, idx =>
    match Config.getWith cast env c option (if rest.isEmpty then default else none) with
    | .undefinedError _ =>
      (Event.tryConfig idx :: (tryConfigs env option cast default rest (idx + 1)).1,
       (tryConfigs env option cast default rest (idx + 1)).2)
    | r => ([Event.tryConfig idx], r)

/-- `SuperConfig.__call__` (decouple.py lines 316-335): run discovery if
no `Config` exists yet, then try the loaded `Config`s in order.  Returns
the updated instance state, the event trace, and the outcome. -/
def SuperConfig.call {α : Type} (fs : FS) (cwd : Path) (env : List (String × String))
    (callerPath : Path) (sc : SuperConfig) (option : String) (default : Option α)
    (cast : String → Option α) : SuperConfig × List Event × CfgResult α :=
  ((SuperConfig.discover fs cwd callerPath sc).1,
   (SuperConfig.discover fs cwd callerPath sc).2 ++
     (tryConfigs env option cast default (SuperConfig.discover fs cwd callerPath sc).1.configs 0).1,
   (tryConfigs env option cast default (SuperConfig.discover fs cwd callerPath sc).1.configs 0).2)

/-! ### Trace observations -/

/-- Is the event a directory scan? -/
def isScanE : Event → Bool
  | .scanDir _ => true
  | _ => false

/-- Is the event a file load? -/
def isLoadE : Event → Bool
  | .loadFile _ => true
  | _ => false

/-- Is the event a discovery-phase event (scan or load)? -/
def isDiscE : Event → Bool
  | .tryConfig _ => false
  | _ => true

/-- Is the event a resolver trial? -/
def isTryE : Event → Bool
  | .tryConfig _ => true
  | _ => false

/-- The directories scanned in a trace, in order. -/
def scanTargets (tr : List Event) : List Path :=
  tr.filterMap fun e =>
    match e with
    | .scanDir p => some p
    | _ => none

/-- The files loaded in a trace, in order. -/
def loadTargets (tr : List Event) : List Path :=
  tr.filterMap fun e =>
    match e with
    | .loadFile p => some p
    | _ => none

/-- `a` is an ancestor-or-equal of `p` (as directory paths). -/
def isAncestorOf (a p : Path) : Bool :=
  decide (a = p.take a.length)

/-- Does position `i` of the trace hold a file load? -/
def isLoadAt (tr : List Event) (i : Nat) : Bool :=
  match tr.get? i with
  | some (.loadFile _) => true
  | _ => false

/-- Does position `i` of the trace hold a directory scan? -/
def isScanAt (tr : List Event) (i : Nat) : Bool :=
  match tr.get? i with
  | some (.scanDir _) => true
  | _ => false

/-- Does position `i` of the trace hold a resolver trial? -/
def isTryAt (tr : List Event) (i : Nat) : Bool :=
  match tr.get? i with
  | some (.tryConfig _) => true
  | _ => false

/-- Formalisation of the lazy/incremental discovery discipline claimed for
`AutoResolver` lookups: once a Resolver has been constructed (a file load),
any later scan of a not-yet-searched directory must come after a trial of
an existing Resolver (a weakening of "every already-constructed Resolver
has been tried and missed before the next directory is searched"; refuting
it refutes the claim a fortiori). -/
def LazyIncremental (tr : List Event) : Prop :=
  ∀ i, i < tr.length → ∀ j, j < tr.length → i < j →
    isLoadAt tr i = true → isScanAt tr j = true →
    ∃ k, k < j ∧ i < k ∧ isTryAt tr k = true

/-! ### Concrete scenarios used by the refutations and witnesses -/

/-- An empty filesystem. -/
def fsE : FS := ⟨[], []⟩

/-- A filesystem with one `.env` file in `/home/proj` defining `X=1`. -/
def fs1 : FS :=
  ⟨[(["home", "proj"], [".env"]), (["home"], [])],
   [(["home", "proj", ".env"], .envLines ["X=1"])]⟩

/-- A fresh `SuperConfig()` with no explicit search paths. -/
def scE : SuperConfig := ⟨[], [], []⟩

/-- A fresh `SuperConfig('/a/c')`. -/
def scAC : SuperConfig := ⟨[["a", "c"]], [], []⟩

/-- Trace of the first lookup of `X` on a fresh instance: caller directory
`/home/proj`, cwd `/home`, empty process environment. -/
def c1trace : List Event :=
  (SuperConfig.call fs1 ["home"] [] ["home", "proj"] scE "X" none (fun s => some s)).2.1

/-- Trace of a lookup whose two seed paths `/a/b` (caller) and `/a/c`
(configured) both walk up through `/a`; cwd is the unrelated `/z`. -/
def c2trace : List Event :=
  (SuperConfig.call fsE ["z"] [] ["a", "b"] scAC "X" none (fun s => some s)).2.1

/-- Trace of a lookup whose caller directory `/a/d` lies outside the cwd
`/a/b/c` subtree. -/
def c3trace : List Event :=
  (SuperConfig.call fsE ["a", "b", "c"] [] ["a", "d"] scE "X" none (fun s => some s)).2.1

/-! ## Helper lemmas -/

theorem loadTargets_append (l m : List Event) :
    loadTargets (l ++ m) = loadTargets l ++ loadTargets m := by
  simp [loadTargets]

theorem scanTargets_append (l m : List Event) :
    scanTargets (l ++ m) = scanTargets l ++ scanTargets m := by
  simp [scanTargets]

theorem all_imp_events {p q : Event → Bool} (hpq : ∀ e, p e = true → q e = true)
    (tr : List Event) (h : tr.all p = true) : tr.all q = true := by
  simp only [List.all_eq_true] at h ⊢
  exact fun e he => hpq e (h e he)

theorem loadTargets_of_all_try : ∀ tr : List Event, tr.all isTryE = true → loadTargets tr = []
  | [], _ => rfl
  | e :: t, h => by
    cases e with
    | tryConfig i =>
      simp only [List.all_cons, Bool.and_eq_true] at h
      simpa [loadTargets] using loadTargets_of_all_try t h.2
    | scanDir p => simp [isTryE] at h
    | loadFile p => simp [isTryE] at h

theorem scanTargets_of_all_try : ∀ tr : List Event, tr.all isTryE = true → scanTargets tr = []
  | [], _ => rfl
  | e :: t, h => by
    cases e with
    | tryConfig i =>
      simp only [List.all_cons, Bool.and_eq_true] at h
      simpa [scanTargets] using scanTargets_of_all_try t h.2
    | scanDir p => simp [isTryE] at h
    | loadFile p => simp [isTryE] at h

theorem scanTargets_of_all_load : ∀ tr : List Event, tr.all isLoadE = true → scanTargets tr = []
  | [], _ => rfl
  | e :: t, h => by
    cases e with
    | loadFile p =>
      simp only [List.all_cons, Bool.and_eq_true] at h
      simpa [scanTargets] using scanTargets_of_all_load t h.2
    | scanDir p => simp [isLoadE] at h
    | tryConfig i => simp [isLoadE] at h

theorem loadFilesIn_cp (fs : FS) (path : Path) :
    ∀ (fns : List String) (sc : SuperConfig),
      (loadFilesIn fs path sc fns).1.config_paths
        = (loadTargets (loadFilesIn fs path sc fns).2).reverse ++ sc.config_paths
  | [], sc => by simp [loadFilesIn, loadTargets]
  | fn :: rest, sc => by
    simp only [loadFilesIn]
    split
    · split
      · exact loadFilesIn_cp fs path rest sc
      · have ih := loadFilesIn_cp fs path rest (loadStep fs path fn sc)
        simp only [loadStep] at ih
        simp [loadTargets, ih, loadStep]
    · exact loadFilesIn_cp fs path rest sc

theorem loadFilesIn_nodup (fs : FS) (path : Path) :
    ∀ (fns : List String) (sc : SuperConfig), sc.config_paths.Nodup →
      (loadFilesIn fs path sc fns).1.config_paths.Nodup
  | [], sc, h => h
  | fn :: rest, sc, h => by
    simp only [loadFilesIn]
    split
    · split
      · exact loadFilesIn_nodup fs path rest sc h
      · next hnotin =>
        refine loadFilesIn_nodup fs path rest (loadStep fs path fn sc) ?_
        simp only [loadStep, List.nodup_cons]
        exact ⟨hnotin, h⟩
    · exact loadFilesIn_nodup fs path rest sc h

theorem loadFilesIn_events (fs : FS) (path : Path) :
    ∀ (fns : List String) (sc : SuperConfig), ((loadFilesIn fs path sc fns).2).all isLoadE = true
  | [], sc => rfl
  | fn :: rest, sc => by
    simp only [loadFilesIn]
    split
    · split
      · exact loadFilesIn_events fs path rest sc
      · have ih := loadFilesIn_events fs path rest (loadStep fs path fn sc)
        simp [List.all_cons, isLoadE, ih]
    · exact loadFilesIn_events fs path rest sc

theorem loadInDir_cp (fs : FS) (sc : SuperConfig) (path : Path) :
    (loadInDir fs sc path).1.config_paths
      = (loadTargets (loadInDir fs sc path).2).reverse ++ sc.config_paths := by
  simpa [loadInDir, loadTargets] using loadFilesIn_cp fs path (listdir fs path) sc

theorem loadInDir_nodup (fs : FS) (sc : SuperConfig) (path : Path)
    (h : sc.config_paths.Nodup) : (loadInDir fs sc path).1.config_paths.Nodup :=
  loadFilesIn_nodup fs path (listdir fs path) sc h

theorem loadInDir_events (fs : FS) (sc : SuperConfig) (path : Path) :
    ((loadInDir fs sc path).2).all isDiscE = true := by
  have h := loadFilesIn_events fs path (listdir fs path) sc
  simp only [loadInDir, List.all_cons, Bool.and_eq_true, isDiscE]
  exact ⟨trivial, all_imp_events (fun e he => by cases e <;> simp_all [isLoadE, isDiscE]) _ h⟩

theorem loadInDir_scans (fs : FS) (sc : SuperConfig) (path : Path) :
    scanTargets (loadInDir fs sc path).2 = [path] := by
  have h := scanTargets_of_all_load _ (loadFilesIn_events fs path (listdir fs path) sc)
  simp [loadInDir, scanTargets] at h ⊢
  exact h

theorem findFilesRev_cp (fs : FS) (cwd : Path) :
    ∀ (rp : List String) (sc : SuperConfig),
      (findFilesRev fs cwd sc rp).1.config_paths
        = (loadTargets (findFilesRev fs cwd sc rp).2).reverse ++ sc.config_paths
  | [], sc => loadInDir_cp fs sc []
  | c :: rest, sc => by
    simp only [findFilesRev]
    split
    · rw [findFilesRev_cp fs cwd rest (loadInDir fs sc ((c :: rest).reverse)).1]
      rw [loadInDir_cp fs sc ((c :: rest).reverse)]
      simp [loadTargets_append, List.append_assoc]
    · exact loadInDir_cp fs sc ((c :: rest).reverse)

theorem findFilesRev_nodup (fs : FS) (cwd : Path) :
    ∀ (rp : List String) (sc : SuperConfig), sc.config_paths.Nodup →
      (findFilesRev fs cwd sc rp).1.config_paths.Nodup
  | [], sc, h => loadInDir_nodup fs sc [] h
  | c :: rest, sc, h => by
    simp only [findFilesRev]
    split
    · exact findFilesRev_nodup fs cwd rest _ (loadInDir_nodup fs sc ((c :: rest).reverse) h)
    · exact loadInDir_nodup fs sc ((c :: rest).reverse) h

theorem findFilesRev_events (fs : FS) (cwd : Path) :
    ∀ (rp : List String) (sc : SuperConfig),
      ((findFilesRev fs cwd sc rp).2).all isDiscE = true
  | [], sc => loadInDir_events fs sc []
  | c :: rest, sc => by
    simp only [findFilesRev]
    split
    · simp only [List.all_append, Bool.and_eq_true]
      exact ⟨loadInDir_events fs sc ((c :: rest).reverse),
             findFilesRev_events fs cwd rest _⟩
    · exact loadInDir_events fs sc ((c :: rest).reverse)

theorem findFilesAll_cp (fs : FS) (cwd : Path) :
    ∀ (ps : List Path) (sc : SuperConfig),
      (findFilesAll fs cwd sc ps).1.config_paths
        = (loadTargets (findFilesAll fs cwd sc ps).2).reverse ++ sc.config_paths
  | [], sc => by simp [findFilesAll, loadTargets]
  | p :: ps, sc => by
    simp only [findFilesAll]
    rw [findFilesAll_cp fs cwd ps (findFiles fs cwd sc p).1]
    rw [show (findFiles fs cwd sc p).1.config_paths
          = (loadTargets (findFiles fs cwd sc p).2).reverse ++ sc.config_paths from
        findFilesRev_cp fs cwd p.reverse sc]
    simp [loadTargets_append, List.append_assoc]

theorem findFilesAll_nodup (fs : FS) (cwd : Path) :
    ∀ (ps : List Path) (sc : SuperConfig), sc.config_paths.Nodup →
      (findFilesAll fs cwd sc ps).1.config_paths.Nodup
  | [], _, h => h
  | p :: ps, sc, h =>
    findFilesAll_nodup fs cwd ps _ (findFilesRev_nodup fs cwd p.reverse sc h)

theorem findFilesAll_events (fs : FS) (cwd : Path) :
    ∀ (ps : List Path) (sc : SuperConfig),
      ((findFilesAll fs cwd sc ps).2).all isDiscE = true
  | [], sc => rfl
  | p :: ps, sc => by
    simp only [findFilesAll, List.all_append, Bool.and_eq_true]
    exact ⟨findFilesRev_events fs cwd p.reverse sc, findFilesAll_events fs cwd ps _⟩

theorem tryConfigs_events {α : Type} (env : List (String × String)) (option : String)
    (cast : String → Option α) (default : Option α) :
    ∀ (cfgs : List Source) (idx : Nat),
      ((tryConfigs env option cast default cfgs idx).1).all isTryE = true
  | [], _ => rfl
  | c :: rest, idx => by
    simp only [tryConfigs]
    split
    · simp only [List.all_cons, Bool.and_eq_true, isTryE]
      exact ⟨trivial, tryConfigs_events env option cast default rest (idx + 1)⟩
    · rfl

theorem discover_cp (fs : FS) (cwd : Path) (callerPath : Path) (sc : SuperConfig) :
    (SuperConfig.discover fs cwd callerPath sc).1.config_paths
      = (loadTargets (SuperConfig.discover fs cwd callerPath sc).2).reverse
        ++ sc.config_paths := by
  unfold SuperConfig.discover
  split
  · exact findFilesAll_cp fs cwd (callerPath :: sc.search_paths) sc
  · simp [loadTargets]

theorem discover_nodup (fs : FS) (cwd : Path) (callerPath : Path) (sc : SuperConfig)
    (h : sc.config_paths.Nodup) :
    (SuperConfig.discover fs cwd callerPath sc).1.config_paths.Nodup := by
  unfold SuperConfig.discover
  split
  · exact findFilesAll_nodup fs cwd (callerPath :: sc.search_paths) sc h
  · exact h

theorem discover_events (fs : FS) (cwd : Path) (callerPath : Path) (sc : SuperConfig) :
    ((SuperConfig.discover fs cwd callerPath sc).2).all isDiscE = true := by
  unfold SuperConfig.discover
  split
  · exact findFilesAll_events fs cwd (callerPath :: sc.search_paths) sc
  · rfl

theorem discover_skip (fs : FS) (cwd : Path) (callerPath : Path) (sc : SuperConfig)
    (h : sc.configs ≠ []) : SuperConfig.discover fs cwd callerPath sc = (sc, []) := by
  unfold SuperConfig.discover
  rw [if_neg]
  simpa [List.length_eq_zero] using h

theorem contains_true_getK_val (src : Source) (k : String)
    (h : src.containsR k = .found true) : ∃ v, src.getK k = .val v := by
  cases src with
  | empty => simp [Source.containsR] at h
  | envFile data =>
    simp only [Source.containsR, ContainsR.found.injEq] at h
    cases hl : List.lookup k data with
    | none => rw [hl] at h; simp at h
    | some v => exact ⟨v, by simp [Source.getK, hl]⟩
  | secretDir data =>
    simp only [Source.containsR, ContainsR.found.injEq] at h
    cases hl : List.lookup k data with
    | none => rw [hl] at h; simp at h
    | some v => exact ⟨v, by simp [Source.getK, hl]⟩
  | iniFile sections =>
    simp only [Source.containsR] at h
    by_cases hs : (splitKey k).1 = ""
    · simp [hs] at h
    · rw [if_neg hs] at h
      cases hl : List.lookup (splitKey k).1 sections with
      | none => rw [hl] at h; simp at h
      | some opts =>
        rw [hl] at h
        simp only [ContainsR.found.injEq] at h
        cases ho : List.lookup (splitKey k).2 opts with
        | none => rw [ho] at h; simp at h
        | some v => exact ⟨v, by simp [Source.getK, if_neg hs, hl, ho]⟩

theorem ancestor_dropLast {a p : Path} (h : isAncestorOf a p = true) (hne : p ≠ a) :
    isAncestorOf a p.dropLast = true := by
  simp only [isAncestorOf, decide_eq_true_eq] at h ⊢
  have hlt : a.length < p.length := by
    rcases Nat.lt_or_ge a.length p.length with hl | hg
    · exact hl
    · exact absurd (h.trans (List.take_of_length_le hg)).symm hne
  rw [List.dropLast_eq_take, List.take_take]
  rwa [show min a.length (p.length - 1) = a.length by omega]

theorem findFilesRev_scans_below (fs : FS) (cwd : Path) :
    ∀ (rp : List String) (sc : SuperConfig), isAncestorOf cwd rp.reverse = true →
      (scanTargets (findFilesRev fs cwd sc rp).2).all (fun p => isAncestorOf cwd p) = true
  | [], sc, h => by
    rw [show findFilesRev fs cwd sc [] = loadInDir fs sc [] from rfl]
    rw [loadInDir_scans]
    simpa using h
  | c :: rest, sc, h => by
    simp only [findFilesRev]
    split
    · next hcond =>
      rw [scanTargets_append, List.all_append, Bool.and_eq_true]
      constructor
      · rw [loadInDir_scans]; simpa using h
      · refine findFilesRev_scans_below fs cwd rest _ ?_
        have hdl : (c :: rest).reverse.dropLast = rest.reverse := by
          rw [show (c :: rest).reverse = rest.reverse ++ [c] by simp]
          exact List.dropLast_concat
        rw [← hdl]
        exact ancestor_dropLast h hcond.2
    · rw [loadInDir_scans]; simpa using h

theorem dropWhile_eq_self_of_head {p : Char → Bool} :
    ∀ cs : List Char, (∀ c, cs.head? = some c → p c = false) → cs.dropWhile p = cs
  | [], _ => rfl
  | c :: t, h => by simp [List.dropWhile_cons, h c rfl]

theorem pyStrip_ends (cs : List Char)
    (h1 : ∀ c, cs.head? = some c → pySpace c = false)
    (h2 : ∀ c, cs.getLast? = some c → pySpace c = false) :
    pyStrip cs = cs := by
  unfold pyStrip
  rw [dropWhile_eq_self_of_head cs h1]
  rw [dropWhile_eq_self_of_head cs.reverse
    (fun c hc => h2 c (by rwa [List.head?_reverse] at hc))]
  exact List.reverse_reverse cs

theorem pyStrip_nospace (k : List Char) (h : ∀ c ∈ k, pySpace c = false) :
    pyStrip k = k :=
  pyStrip_ends k (fun c hc => h c (List.mem_of_mem_head? (by simp [hc])))
    (fun c hc => h c (List.mem_of_mem_getLast? (by simp [hc])))

theorem takeWhile_all_append {p : Char → Bool} (x : Char) (rest : List Char) (hx : p x = false) :
    ∀ k : List Char, (∀ c ∈ k, p c = true) → (k ++ x :: rest).takeWhile p = k
  | [], _ => by simp [List.takeWhile_cons, hx]
  | c :: t, h => by
    have hc : p c = true := h c (List.mem_cons_self c t)
    simp only [List.cons_append, List.takeWhile_cons, hc, if_true]
    rw [takeWhile_all_append x rest hx t (fun d hd => h d (List.mem_cons_of_mem c hd))]

theorem dropWhile_all_append {p : Char → Bool} (x : Char) (rest : List Char) (hx : p x = false) :
    ∀ k : List Char, (∀ c ∈ k, p c = true) → (k ++ x :: rest).dropWhile p = x :: rest
  | [], _ => by simp [List.dropWhile_cons, hx]
  | c :: t, h => by
    have hc : p c = true := h c (List.mem_cons_self c t)
    simp only [List.cons_append, List.dropWhile_cons, hc, if_true]
    exact dropWhile_all_append x rest hx t (fun d hd => h d (List.mem_cons_of_mem c hd))

theorem pySpace_quote {q : Char} (hq : q = squote ∨ q = dquote) : pySpace q = false := by
  rcases hq with h | h <;> subst h <;> decide

theorem stripQuotes_quoted (q : Char) (hq : q = squote ∨ q = dquote) (mid : List Char) :
    stripQuotesL (q :: mid ++ [q]) = mid := by
  have hlast : (q :: mid ++ [q]).getLast? = some q := List.getLast?_concat (q :: mid)
  have hwrap : quotedWrapB (q :: mid ++ [q]) = true := by
    simp only [quotedWrapB, decide_eq_true_eq]
    refine ⟨by simp, ?_⟩
    rcases hq with h | h <;> subst h
    · exact Or.inl ⟨rfl, hlast⟩
    · exact Or.inr ⟨rfl, hlast⟩
  simp only [stripQuotesL, hwrap, if_true]
  show (mid ++ [q]).dropLast = mid
  exact List.dropLast_concat

theorem stripQuotes_unquoted (v : List Char) (h : quotedWrapB v = false) :
    stripQuotesL v = v := by
  simp [stripQuotesL, h]

theorem parseEnvLines_append_last (ls : List String) (line : String) (k v : List Char)
    (h : parseEnvLine line.toList = some (k, v)) :
    List.lookup (String.mk k) (parseEnvLines (ls ++ [line])) = some (String.mk v) := by
  unfold parseEnvLines
  rw [List.foldl_append]
  simp only [List.foldl_cons, List.foldl_nil]
  rw [show parseEnvLine line.toList = some (k, v) from h]
  simp [List.lookup]

theorem parseEnvLine_quoted (k mid : List Char) (q : Char)
    (hq : q = squote ∨ q = dquote)
    (hknil : k ≠ [])
    (hkc : ∀ c ∈ k, pySpace c = false ∧ c ≠ '=')
    (hkh : k.head? ≠ some '#') :
    parseEnvLine (k ++ '=' :: (q :: mid ++ [q])) = some (k, mid) := by
  have hqs : pySpace q = false := pySpace_quote hq
  have hstrip : pyStrip (k ++ '=' :: (q :: mid ++ [q])) = k ++ '=' :: (q :: mid ++ [q]) := by
    apply pyStrip_ends
    · intro c hc
      cases k with
      | nil => exact absurd rfl hknil
      | cons a t =>
        simp only [List.cons_append, List.head?_cons, Option.some.injEq] at hc
        subst hc
        exact (hkc a (List.mem_cons_self a t)).1
    · intro c hc
      rw [show k ++ '=' :: (q :: mid ++ [q]) = (k ++ '=' :: q :: mid) ++ [q] by simp] at hc
      rw [List.getLast?_concat] at hc
      injection hc with hh
      subst hh
      exact hqs
  have hvstrip : pyStrip (q :: mid ++ [q]) = q :: mid ++ [q] := by
    apply pyStrip_ends
    · intro c hc
      simp only [List.cons_append, List.head?_cons, Option.some.injEq] at hc
      subst hc
      exact hqs
    · intro c hc
      rw [List.getLast?_concat] at hc
      injection hc with hh
      subst hh
      exact hqs
  have hkp : ∀ c ∈ k, ((fun c => c != '=') c) = true := fun c hc => by
    simpa [bne_iff_ne] using (hkc c hc).2
  have hxp : ((fun c => c != '=') ('=' : Char)) = false := by decide
  have htake := @takeWhile_all_append (fun c => c != '=') ('=' : Char) (q :: mid ++ [q]) hxp k hkp
  have hdrop := @dropWhile_all_append (fun c => c != '=') ('=' : Char) (q :: mid ++ [q]) hxp k hkp
  have hkstrip : pyStrip k = k := pyStrip_nospace k (fun c hc => (hkc c hc).1)
  obtain ⟨a, t, hk⟩ : ∃ a t, k = a :: t := by
    cases k with
    | nil => exact absurd rfl hknil
    | cons a t => exact ⟨a, t, rfl⟩
  have hH : ¬ (k ++ '=' :: (q :: mid ++ [q])).head? = some '#' := by
    subst hk
    simp only [List.cons_append, List.head?_cons, Option.some.injEq]
    intro hha
    exact hkh (by simp [hha])
  have hM : '=' ∈ k ++ '=' :: (q :: mid ++ [q]) := by
    simp [List.mem_append, List.mem_cons]
  unfold parseEnvLine
  simp only [hstrip]
  rw [if_neg (show ¬ (k ++ '=' :: (q :: mid ++ [q])).isEmpty = true by subst hk; simp)]
  rw [if_neg hH]
  rw [if_pos hM]
  rw [htake]
  rw [hdrop]
  rw [hkstrip]
  simp only [List.drop_one, List.tail_cons]
  rw [hvstrip, stripQuotes_quoted q hq mid]

/-! ## Claims -/

/-- Claim C1, refutation: on the very first lookup the code performs the
whole upward walk eagerly — in the recorded trace a directory is scanned
after a `Config` has already been constructed from `/home/proj/.env`, with
no Resolver trial in between, so discovery is not lazy and incremental as
claimed. -/
theorem superconfig_not_lazy_incremental : ¬ LazyIncremental c1trace := by
  intro h
  have h1 : isLoadAt c1trace 1 = true := by decide
  have h2 : isScanAt c1trace 2 = true := by decide
  have hlen : 2 < c1trace.length := by decide
  obtain ⟨k, hkj, hik, _⟩ := h 1 (by omega) 2 hlen (by omega) h1 h2
  omega

/-- Claim C1, amended: discovery is eager and batched, not lazy and
incremental.  In every lookup's trace all directory scans and file loads
precede all Resolver trials, and a lookup that starts with at least one
constructed Resolver performs no directory scan at all. -/
theorem superconfig_discovery_batched {α : Type} (fs : FS) (cwd : Path)
    (env : List (String × String)) (callerPath : Path) (sc : SuperConfig) (option : String)
    (default : Option α) (cast : String → Option α) :
    (∃ pre post,
      (SuperConfig.call fs cwd env callerPath sc option default cast).2.1 = pre ++ post
        ∧ pre.all isDiscE = true ∧ post.all isTryE = true)
    ∧ (sc.configs = []
        ∨ ((SuperConfig.call fs cwd env callerPath sc option default cast).2.1).all
            (fun e => !isScanE e) = true) := by
  constructor
  · exact ⟨(SuperConfig.discover fs cwd callerPath sc).2,
      (tryConfigs env option cast default
        (SuperConfig.discover fs cwd callerPath sc).1.configs 0).1,
      rfl, discover_events fs cwd callerPath sc,
      tryConfigs_events env option cast default _ 0⟩
  · by_cases hc : sc.configs = []
    · exact Or.inl hc
    · refine Or.inr ?_
      have hd := discover_skip fs cwd callerPath sc hc
      unfold SuperConfig.call
      rw [hd]
      show (([] : List Event) ++ (tryConfigs env option cast default sc.configs 0).1).all
          (fun e => !isScanE e) = true
      rw [List.nil_append]
      refine all_imp_events (fun e he => ?_) _
        (tryConfigs_events env option cast default sc.configs 0)
      cases e <;> simp_all [isTryE, isScanE]

/-- Claim C2, refutation: within a single lookup, the upward walks seeded
at `/a/b` (the caller) and `/a/c` (a configured search path) both scan the
shared parent `/a`, so a directory is scanned twice by the same instance. -/
theorem superconfig_rescans_shared_ancestor : ¬ (scanTargets c2trace).Nodup := by
  decide

/-- Claim C2, amended: the memoization that exists is per config file, not
per directory — the same file path is never loaded into two Resolvers, and
a lookup that starts with at least one Resolver scans nothing; but within
one discovery pass overlapping walks may re-scan shared directories, and
while no file has been found each lookup repeats the walk. -/
theorem superconfig_files_loaded_once {α : Type} (fs : FS) (cwd : Path)
    (env : List (String × String)) (callerPath : Path) (sc : SuperConfig) (option : String)
    (default : Option α) (cast : String → Option α)
    (h : sc.config_paths.Nodup) :
    (loadTargets (SuperConfig.call fs cwd env callerPath sc option default cast).2.1).Nodup
    ∧ (SuperConfig.call fs cwd env callerPath sc option default cast).1.config_paths.Nodup
    ∧ (∀ p ∈ loadTargets (SuperConfig.call fs cwd env callerPath sc option default cast).2.1,
        p ∉ sc.config_paths)
    ∧ (sc.configs = []
        ∨ ((SuperConfig.call fs cwd env callerPath sc option default cast).2.1).all
            (fun e => !isScanE e) = true) := by
  have htr : loadTargets (SuperConfig.call fs cwd env callerPath sc option default cast).2.1
      = loadTargets (SuperConfig.discover fs cwd callerPath sc).2 := by
    show loadTargets ((SuperConfig.discover fs cwd callerPath sc).2 ++ _) = _
    rw [loadTargets_append]
    rw [loadTargets_of_all_try _ (tryConfigs_events env option cast default _ 0)]
    simp
  have hcp := discover_cp fs cwd callerPath sc
  have hnd := discover_nodup fs cwd callerPath sc h
  rw [hcp] at hnd
  have hsplit := List.nodup_append.mp hnd
  refine ⟨?_, ?_, ?_, ?_⟩
  · rw [htr]; exact List.nodup_reverse.mp hsplit.1
  · show (SuperConfig.discover fs cwd callerPath sc).1.config_paths.Nodup
    rw [hcp]; exact hnd
  · intro p hp
    rw [htr] at hp
    exact fun hmem => hsplit.2.2 (List.mem_reverse.mpr hp) hmem
  · by_cases hc : sc.configs = []
    · exact Or.inl hc
    · refine Or.inr ?_
      have hd := discover_skip fs cwd callerPath sc hc
      unfold SuperConfig.call
      rw [hd]
      show (([] : List Event) ++ (tryConfigs env option cast default sc.configs 0).1).all
          (fun e => !isScanE e) = true
      rw [List.nil_append]
      refine all_imp_events (fun e he => ?_) _
        (tryConfigs_events env option cast default sc.configs 0)
      cases e <;> simp_all [isTryE, isScanE]

/-- Witness for the amended C2 theorem at the two-seed scenario. -/
theorem superconfig_files_loaded_once_witness :
    scAC.config_paths.Nodup
    ∧ (loadTargets (SuperConfig.call fsE ["z"] [] ["a", "b"] scAC "X" none
        (fun s => some s)).2.1).Nodup :=
  ⟨by decide, (superconfig_files_loaded_once fsE ["z"] [] ["a", "b"] scAC "X" none
    (fun s => some s) (by decide)).1⟩

/-- Claim C3, refutation: with cwd `/a/b/c` and a caller directory `/a/d`
outside the cwd subtree, the walk scans `/a`, a strict ancestor of the
working directory, so the bound claimed for the upward search does not
hold for every starting directory. -/
theorem findfiles_escapes_above_cwd :
    ¬ ((scanTargets c3trace).all
        (fun p => !(isAncestorOf p ["a", "b", "c"] && decide (p ≠ ["a", "b", "c"]))) = true) := by
  decide

/-- Claim C3, amended: the walk is bounded by the working directory only
when the starting directory lies inside the cwd subtree — under
`isAncestorOf cwd seed` every directory scanned by `_find_files` is a
descendant-or-equal of cwd (hence never a strict ancestor of it). -/
theorem findfiles_stays_below_cwd (fs : FS) (cwd : Path) (sc : SuperConfig) (seed : Path)
    (h : isAncestorOf cwd seed = true) :
    (scanTargets (findFiles fs cwd sc seed).2).all (fun p => isAncestorOf cwd p) = true :=
  findFilesRev_scans_below fs cwd seed.reverse sc (by simpa using h)

/-- Witness for the amended C3 theorem: a seed `/r/s` inside cwd `/r`. -/
theorem findfiles_stays_below_cwd_witness :
    isAncestorOf ["r"] ["r", "s"] = true
    ∧ (scanTargets (findFiles fsE ["r"] scE ["r", "s"]).2).all
        (fun p => isAncestorOf ["r"] p) = true :=
  ⟨by decide, findfiles_stays_below_cwd fsE ["r"] scE ["r", "s"] (by decide)⟩

/-- Claim C4 (code bug): when discovery finds no configuration file at
all, `SuperConfig.__call__` raises `UndefinedValueError` even though a
default was supplied — the `configs` loop body never runs, so the default
is never returned. -/
theorem superconfig_default_ignored_when_no_files :
    (SuperConfig.call fsE ["w"] [] ["w", "app"] scE "OPT" (some "fallback")
      (fun s => some s)).2.2 = CfgResult.undefinedError "OPT" := by
  decide

/-- Claim C5: a process environment variable always wins — whenever the
environment binds the option, `Config.get` returns the cast environment
value, whatever the wrapped Source holds and whatever default was given. -/
theorem config_env_always_wins {α : Type} (cast : String → Option α)
    (env : List (String × String)) (src : Source) (option v : String)
    (default : Option α) (h : List.lookup option env = some v) :
    Config.getWith cast env src option default = applyCast cast v := by
  unfold Config.getWith
  rw [h]

/-- Witness for C5: the environment value beats both a conflicting Source
binding and a supplied default. -/
theorem config_env_always_wins_witness :
    List.lookup "K" [("K", "envval")] = some "envval"
    ∧ Config.getWith (fun s => some s) [("K", "envval")]
        (Source.envFile [("K", "other")]) "K" (some "dflt") = CfgResult.ok "envval" :=
  ⟨by decide, (config_env_always_wins (fun s => some s) [("K", "envval")]
    (Source.envFile [("K", "other")]) "K" "envval" (some "dflt") (by decide)).trans (by decide)⟩

/-- Claim C6 (code bug): the raise-iff-exhausted contract fails for the
`SuperConfig` lookup — with no config file discovered, the option set in
the process environment, and even though `Config.get` would have returned
it, `SuperConfig.__call__` raises `UndefinedValueError` because its loop
over the empty `configs` list never consults the environment. -/
theorem superconfig_raises_despite_env :
    (SuperConfig.call fsE ["w"] [("OPT", "hello")] ["w", "app"] scE "OPT" none
      (fun s => some s)).2.2 = CfgResult.undefinedError "OPT" := by
  decide

/-- Claim C7, refutation: `RepositoryEmpty.__getitem__` returns Python
`None` for an absent key (every key is absent there, `__contains__` is
`False`), instead of raising `KeyError` as the Source contract claims. -/
theorem repository_empty_returns_none :
    Source.containsR Source.empty "SOME_KEY" = ContainsR.found false
    ∧ Source.getK Source.empty "SOME_KEY" ≠ SrcResult.keyError "SOME_KEY"
    ∧ Source.getK Source.empty "SOME_KEY" = SrcResult.retNone := by
  decide

/-- Claim C7, amended: `EnvFile` and `SecretDir` raise `KeyError` on an
absent key, and `IniFile` raises `KeyError` when the section exists but
the option does not (translating the parser's `NoOptionError`); but the
`Empty` variant returns `None` instead of raising, and a missing ini
section surfaces the parser's own `NoSectionError`. -/
theorem sources_keyerror_on_absent (key sec fld : String)
    (data sdata opts : List (String × String))
    (sections : List (String × List (String × String)))
    (h1 : List.lookup key data = none) (h2 : List.lookup key sdata = none)
    (h3 : splitKey key = (sec, fld)) (h4 : sec ≠ "")
    (h5 : List.lookup sec sections = some opts) (h6 : List.lookup fld opts = none) :
    Source.getK (Source.envFile data) key = SrcResult.keyError key
    ∧ Source.getK (Source.secretDir sdata) key = SrcResult.keyError key
    ∧ Source.getK (Source.iniFile sections) key = SrcResult.keyError key
    ∧ Source.getK Source.empty key = SrcResult.retNone := by
  refine ⟨?_, ?_, ?_, rfl⟩
  · simp [Source.getK, h1]
  · simp [Source.getK, h2]
  · simp [Source.getK, h3, h4, h5, h6]

/-- Witness for the amended C7 theorem. -/
theorem sources_keyerror_on_absent_witness :
    List.lookup "MISSING" [("A", "1")] = (none : Option String)
    ∧ Source.getK (Source.iniFile [("settings", [("B", "2")])]) "MISSING"
        = SrcResult.keyError "MISSING" :=
  ⟨by decide, (sources_keyerror_on_absent "MISSING" "settings" "MISSING"
    [("A", "1")] [("A", "1")] [("B", "2")] [("settings", [("B", "2")])]
    (by decide) (by decide) (by decide) (by decide) (by decide) (by decide)).2.2.1⟩

/-- Claim C8: env-file value handling — a value wrapped in one matching
pair of quotes is stored with exactly that outer pair removed and every
inner character kept verbatim; a value that is not so wrapped is stored
unchanged after trimming; the last occurrence of a duplicate key wins; and
a well-formed quoted line `KEY=<q>mid<q>` parses to exactly `(KEY, mid)`. -/
theorem envfile_parsing_spec (q : Char) (mid k v kk vv : List Char)
    (ls : List String) (line : String)
    (hq : q = squote ∨ q = dquote)
    (hnq : quotedWrapB v = false)
    (hline : parseEnvLine line.toList = some (kk, vv))
    (hknil : k ≠ [])
    (hkc : ∀ c ∈ k, pySpace c = false ∧ c ≠ '=')
    (hkh : k.head? ≠ some '#') :
    stripQuotesL (q :: mid ++ [q]) = mid
    ∧ stripQuotesL v = v
    ∧ List.lookup (String.mk kk) (parseEnvLines (ls ++ [line])) = some (String.mk vv)
    ∧ parseEnvLine (k ++ '=' :: (q :: mid ++ [q])) = some (k, mid) :=
  ⟨stripQuotes_quoted q hq mid, stripQuotes_unquoted v hnq,
   parseEnvLines_append_last ls line kk vv hline,
   parseEnvLine_quoted k mid q hq hknil hkc hkh⟩

/-- Witness for C8: `KEY="value with spaces"` overriding an earlier
binding of `KEY` round-trips to `value with spaces`. -/
theorem envfile_parsing_spec_witness :
    stripQuotesL (dquote :: ("value with spaces".toList) ++ [dquote])
        = "value with spaces".toList
    ∧ List.lookup "KEY" (parseEnvLines (["KEY=old"] ++ ["KEY=\"value with spaces\""]))
        = some "value with spaces" := by
  have h := envfile_parsing_spec dquote ("value with spaces".toList) ("KEY".toList)
    ("plain".toList) ("KEY".toList) ("value with spaces".toList)
    ["KEY=old"] "KEY=\"value with spaces\""
    (Or.inr rfl) (by decide) (by decide) (by decide) (by decide) (by decide)
  exact ⟨h.1, h.2.2.1⟩

/-- Claim C9: with the boolean-cast marker (`cast is bool`, which the code
replaces by `_cast_boolean`), a found raw string is converted by the
case-insensitive truth tables, the empty string gives `False`, and any
other string raises `ValueError`. -/
theorem boolean_cast_table (env : List (String × String)) (src : Source) (option s : String)
    (default : Option Bool) (h : List.lookup option env = some s) :
    Config.getWith castBoolean env src option default =
      (if s = "" then CfgResult.ok false
       else if pyLower s ∈ TRUE_VALUES then CfgResult.ok true
       else if pyLower s ∈ FALSE_VALUES then CfgResult.ok false
       else CfgResult.castError) := by
  unfold Config.getWith
  rw [h]
  show applyCast castBoolean s = _
  unfold applyCast castBoolean strtobool
  by_cases h0 : s = ""
  · simp [h0]
  · rw [if_neg h0, if_neg h0]
    by_cases ht : pyLower s ∈ TRUE_VALUES
    · simp [ht]
    · by_cases hf : pyLower s ∈ FALSE_VALUES
      · simp [ht, hf]
      · simp [ht, hf]

/-- Witness for C9: `"YES"` casts to `true`. -/
theorem boolean_cast_table_witness :
    List.lookup "FLAG" [("FLAG", "YES")] = some "YES"
    ∧ Config.getWith castBoolean [("FLAG", "YES")] Source.empty "FLAG" none
        = CfgResult.ok true :=
  ⟨by decide, (boolean_cast_table [("FLAG", "YES")] Source.empty "FLAG" "YES" none
    (by decide)).trans (by decide)⟩

/-- Claim C10: an environment variable bound to the empty string counts as
present — `Config.get` casts the empty string instead of consulting the
Source or the default, so with the boolean cast it yields `false` rather
than triggering the default. -/
theorem empty_env_value_present {α : Type} (cast : String → Option α)
    (env : List (String × String)) (src : Source) (option : String)
    (default : Option α) (defaultB : Option Bool)
    (h : List.lookup option env = some "") :
    Config.getWith cast env src option default = applyCast cast ""
    ∧ Config.getWith castBoolean env src option defaultB = CfgResult.ok false := by
  constructor
  · unfold Config.getWith
    rw [h]
  · unfold Config.getWith
    rw [h]
    rfl

/-- Witness for C10: an empty-valued variable beats both a Source binding
and a default under the boolean cast. -/
theorem empty_env_value_present_witness :
    List.lookup "EMPTY" [("EMPTY", "")] = some ""
    ∧ Config.getWith castBoolean [("EMPTY", "")] (Source.envFile [("EMPTY", "yes")])
        "EMPTY" (some true) = CfgResult.ok false :=
  ⟨by decide, (empty_env_value_present castBoolean [("EMPTY", "")]
    (Source.envFile [("EMPTY", "yes")]) "EMPTY" (some true) (some true) (by decide)).2⟩

end Decouple
